import Mathlib

/-!
Verification development for the invai invoice-extraction backend.

The Python sources under `backend/` are shallowly embedded here:
- `ocr.py` : `clean_text` (whitespace normalisation) and the PDF
  page loop of `extract_text_from_pdf` with its temp-file side effects;
- `config.py` : `Settings.validate`;
- `ai_client.py` : `CerebrasClient.__init__` and the outcome analysis of
  `extract_invoice_data` over an abstract completion response;
- `models.py` : `LineItem`, `InvoiceData` (with pydantic defaults),
  `APIResponse`;
- `main.py` : the `extract_invoice` endpoint pipeline with an explicit
  effect trace (upload temp file created/remaining, OCR invoked, AI
  client invoked).

Text is modelled as `List Char`; Python `re.sub(r"\s+", " ", ·)`,
`str.strip`, `str.split` are given executable list recursions.
-/

/-- Text as a list of characters (Python `str`). -/
abbrev Str := List Char

/-- Python regex `\s` / `str.strip` whitespace on the ASCII range:
space, tab, newline, carriage return, vertical tab, form feed. -/
def pySpace (c : Char) : Bool :=
  c = ' ' || c = '\t' || c = '\n' || c = '\r' ||
  c = Char.ofNat 11 || c = Char.ofNat 12

/-- Worker for `collapseWS`; the flag records whether the previous
character belonged to a whitespace run that already emitted its space. -/
def collapseAux (prevSpace : Bool) : Str → Str
  | [] => []
  | c :: rest =>
    if pySpace c then
      if prevSpace then collapseAux true rest
      else ' ' :: collapseAux true rest
    else c :: collapseAux false rest

/-- Python `re.sub(r"\s+", " ", text)`: every maximal run of whitespace
characters is replaced by a single space. -/
def collapseWS (l : Str) : Str := collapseAux false l

/-- Removal of a trailing run of whitespace (the right half of Python
`str.strip`). -/
def rstripWS : Str → Str
  | [] => []
  | c :: rest =>
    match rstripWS rest with
    | [] => if pySpace c then [] else [c]
    | d :: ds => c :: d :: ds

/-- Python `str.strip()`: drop leading and trailing whitespace. -/
def pyStrip (l : Str) : Str := rstripWS (l.dropWhile pySpace)

/-- Python `str.split(sep)` for a single-character separator: splits at
every occurrence of `sep`, keeping empty pieces, and `"".split(sep)`
is `[""]`. -/
def pySplit (sep : Char) : Str → List Str
  | [] => [[]]
  | c :: rest =>
    match pySplit sep rest with
    | [] => [[]]
    | l :: ls => if c = sep then [] :: l :: ls else (c :: l) :: ls

/-- Model of `OCRProcessor.clean_text` from `ocr.py`: collapse whitespace runs to
single spaces, split on newlines, strip each line, drop empty lines,
rejoin with newlines, strip the result. -/
def clean_text (text : Str) : Str :=
  let t1 := collapseWS text
  let lines := (pySplit '\n' t1).map pyStrip
  let lines2 := lines.filter (fun line => line ≠ [])
  pyStrip (List.intercalate ['\n'] lines2)

/-! ### Shape predicates for cleaned text -/

/-- Every whitespace character of the list is a plain space. -/
def wsOnlySpace : Str → Bool
  | [] => true
  | c :: rest => (!pySpace c || c = ' ') && wsOnlySpace rest

/-- The pair formed by `a` and the head of `l` (if any) is not a pair of
whitespace characters. -/
def pairOk (a : Char) : Str → Bool
  | [] => true
  | b :: _ => !(pySpace a && pySpace b)

/-- No two adjacent characters are both whitespace. -/
def spacedOk : Str → Bool
  | [] => true
  | [_] => true
  | a :: b :: rest => !(pySpace a && pySpace b) && spacedOk (b :: rest)

/-- The head of the list, if any, is not whitespace. -/
def headOk : Str → Bool
  | [] => true
  | d :: _ => !pySpace d

/-! ## PDF page loop (`OCRProcessor.extract_text_from_pdf`, `ocr.py`)

Each page's recognition outcome is an oracle input: `.ok t` is the text
`extract_text_from_image` returns for the rasterized page, `.error e` the
message of the exception it raises.  The loop body saves `temp_page_i.png`
(modelled as adding page index `i` to the disk list), recognises the page,
and unlinks the file; the unlink statement comes textually after the
recognition call, with no `finally`. The function returns the outcome
together with the list of temp page files still on disk afterwards. -/

/-- Loop of `extract_text_from_pdf`: `pages` are the remaining page
outcomes, `i` the index of the next page, `disk` the temp page files
currently on disk. -/
def pdfLoop : List (Except Str Str) → Nat → List Nat → Except Str (List Str) × List Nat
  | [], _, disk => (.ok [], disk)
  | page :: rest, i, disk =>
    let disk1 := disk ++ [i]
    match page with
    | .error e => (.error e, disk1)
    | .ok t =>
      let disk2 := disk1.filter (fun j => j ≠ i)
      match pdfLoop rest (i + 1) disk2 with
      | (.ok ts, disk3) => (.ok (t :: ts), disk3)
      | (.error e, disk3) => (.error e, disk3)

/-- Marker joined between per-page texts in `extract_text_from_pdf`. -/
def PAGE_BREAK : Str := "\n\n--- PAGE BREAK ---\n\n".toList

/-- Model of `OCRProcessor.extract_text_from_pdf`: runs the page loop from page 0
with an empty disk; on success joins the page texts with the page-break
marker, on failure wraps the page exception's message.  The second
component is the set of `temp_page_<i>.png` files left on disk. -/
def extract_text_from_pdf (pages : List (Except Str Str)) : Except Str Str × List Nat :=
  match pdfLoop pages 0 [] with
  | (.ok ts, disk) => (.ok (List.intercalate PAGE_BREAK ts), disk)
  | (.error e, disk) => (.error ("Failed to extract text from PDF: ".toList ++ e), disk)

/-! ## Configuration (`config.py`) and client construction (`ai_client.py`) -/

/-- Constant `Settings.MAX_FILE_SIZE`: 10 MiB. -/
def MAX_FILE_SIZE : Nat := 10 * 1024 * 1024

/-- Constant `Settings.ALLOWED_EXTENSIONS` of `config.py`. -/
def ALLOWED_EXTENSIONS : List Str :=
  [".pdf".toList, ".jpg".toList, ".jpeg".toList, ".png".toList]

/-- Model of `Settings.validate`: returns `(is_valid, error_message)`; the key is
invalid exactly when it is the empty string. -/
def validateSettings (key : Str) : Bool × Str :=
  if key = [] then
    (false, "CEREBRAS_API_KEY not found in environment variables".toList)
  else (true, [])

/-- Model of `CerebrasClient.__init__` from `ai_client.py`: stores the settings and
raises `ValueError("CEREBRAS_API_KEY is not set")` when the key is empty
(Python falsy). `.ok` is normal construction, `.error` the raised message. -/
def CerebrasClient_init (key : Str) : Except Str Unit :=
  if key = [] then .error "CEREBRAS_API_KEY is not set".toList else .ok ()

/-- The `lifespan` startup hook in `main.py`: constructs `OCRProcessor`
(assumed to succeed; it takes no configuration) and then `CerebrasClient`,
so startup raises exactly when client construction does. -/
def lifespan_startup (key : Str) : Except Str Unit := CerebrasClient_init key

/-- The `/api/health` endpoint of `main.py`: returns
`(status, api_configured, error)`. -/
def health_check (key : Str) : Str × Bool × Option Str :=
  let v := validateSettings key
  (if v.1 then "healthy".toList else "degraded".toList,
   v.1,
   if v.1 then none else some v.2)

/-! ## Data model (`models.py`) -/

/-- Model of `LineItem` from `models.py`; numeric JSON values are modelled as `Rat`
(no arithmetic is ever performed on them). -/
structure LineItem where
  description : Option Str := none
  quantity : Option Rat := none
  unit_price : Option Rat := none
  line_total : Option Rat := none
deriving DecidableEq, Repr

/-- Model of `InvoiceData` from `models.py`, with the pydantic field defaults:
every optional field defaults to absent, `currency` to `"USD"`,
`line_items` to the empty list. -/
structure InvoiceData where
  supplier_name : Option Str := none
  supplier_abn_or_vat : Option Str := none
  supplier_address : Option Str := none
  invoice_number : Option Str := none
  issue_date : Option Str := none
  due_date : Option Str := none
  currency : Option Str := some "USD".toList
  subtotal : Option Rat := none
  tax_amount : Option Rat := none
  tax_rate : Option Rat := none
  total_amount : Option Rat := none
  line_items : List LineItem := []
  notes : Option Str := none
deriving DecidableEq, Repr

/-- A decoded JSON object for an invoice (`json.loads(content)` result in
`ai_client.py`).  Each field is `none` when the key is absent from the
object, `some none` when the key is present with JSON `null`, and
`some (some v)` when present with a value; `line_items` cannot be null. -/
structure InvoiceDict where
  supplier_name : Option (Option Str) := none
  supplier_abn_or_vat : Option (Option Str) := none
  supplier_address : Option (Option Str) := none
  invoice_number : Option (Option Str) := none
  issue_date : Option (Option Str) := none
  due_date : Option (Option Str) := none
  currency : Option (Option Str) := none
  subtotal : Option (Option Rat) := none
  tax_amount : Option (Option Rat) := none
  tax_rate : Option (Option Rat) := none
  total_amount : Option (Option Rat) := none
  line_items : Option (List LineItem) := none
  notes : Option (Option Str) := none
deriving DecidableEq, Repr

/-- The empty JSON object `{}` as an `InvoiceDict`. -/
def emptyInvoiceDict : InvoiceDict := {}

/-- Pydantic validation `InvoiceData(**invoice_dict)`: an absent key takes
the field's default, a present key takes its value. -/
def InvoiceData.ofDict (d : InvoiceDict) : InvoiceData where
  supplier_name := d.supplier_name.getD none
  supplier_abn_or_vat := d.supplier_abn_or_vat.getD none
  supplier_address := d.supplier_address.getD none
  invoice_number := d.invoice_number.getD none
  issue_date := d.issue_date.getD none
  due_date := d.due_date.getD none
  currency := d.currency.getD (some "USD".toList)
  subtotal := d.subtotal.getD none
  tax_amount := d.tax_amount.getD none
  tax_rate := d.tax_rate.getD none
  total_amount := d.total_amount.getD none
  line_items := d.line_items.getD []
  notes := d.notes.getD none

/-- Model of `APIResponse` from `models.py`. -/
structure APIResponse where
  success : Bool
  data : Option InvoiceData := none
  error : Option Str := none
  ocr_text : Option Str := none
deriving DecidableEq, Repr

/-! ## Completion client (`CerebrasClient.extract_invoice_data`) -/

/-- Abstract view of the completion endpoint's HTTP response:
`status` and `bodyText` of the raw response, `hasChoices` whether the
decoded response JSON has a non-empty `choices` array, and `content` the
result of `json.loads` on `choices[0].message.content` (`.error` carries
the `JSONDecodeError` message). -/
structure CompletionResponse where
  status : Nat
  bodyText : Str
  hasChoices : Bool
  content : Except Str InvoiceDict
deriving Repr

/-- Decimal rendering of a status code, as Python string formatting does. -/
def statusStr (n : Nat) : Str := (Nat.repr n).toList

/-- Model of `CerebrasClient.extract_invoice_data`: `response.raise_for_status()`
raises `httpx.HTTPStatusError` for every non-2xx status, caught and
re-raised as `"Cerebras API error: <status> - <body>"`; an absent or empty
`choices` array raises `"Invalid response from Cerebras API: no choices"`,
which the generic handler wraps with `"Failed to extract invoice data: "`;
a JSON decode failure of the content is re-raised as
`"Failed to parse JSON response from Cerebras: <msg>"`; otherwise the
decoded object is validated into an `InvoiceData`. -/
def extract_invoice_data (resp : CompletionResponse) : Except Str InvoiceData :=
  if resp.status < 200 ∨ 300 ≤ resp.status then
    .error ("Cerebras API error: ".toList ++ statusStr resp.status ++
            " - ".toList ++ resp.bodyText)
  else if resp.hasChoices = false then
    .error ("Failed to extract invoice data: Invalid response from Cerebras API: no choices".toList)
  else
    match resp.content with
    | .error e => .error ("Failed to parse JSON response from Cerebras: ".toList ++ e)
    | .ok d => .ok (InvoiceData.ofDict d)

/-! ## Endpoint pipeline (`extract_invoice`, `main.py`) -/

/-- One request to the `/api/invoice/extract` endpoint, with the oracle
outcomes of its two effectful collaborators: `ext` is
`Path(file.filename).suffix.lower()`, `contentSize` the byte length of the
upload, `apiKey` the configured credential, `ocrOutcome` the outcome of
text extraction (the raw text `process_file` would clean, or the message
of the exception it raises), and `aiResponse` the completion endpoint's
response. -/
structure Request where
  ext : Str
  contentSize : Nat
  apiKey : Str
  ocrOutcome : Except Str Str
  aiResponse : CompletionResponse
deriving Repr

/-- Effect trace of one `extract_invoice` run: whether the uploaded temp
file was ever created, whether it remains on disk at the end, and whether
the OCR step and the completion client were invoked. -/
structure Trace where
  uploadCreated : Bool
  uploadRemains : Bool
  ocrInvoked : Bool
  aiInvoked : Bool
deriving DecidableEq, Repr

/-- Observable outcome of `extract_invoice`: either a propagated
`HTTPException` (status, detail) or a returned `APIResponse` envelope. -/
inductive Outcome where
  | httpError (status : Nat) (detail : Str)
  | envelope (r : APIResponse)
deriving DecidableEq, Repr

/-- Detail string of the oversize rejection
(`f"File too large. Maximum size: {MAX_FILE_SIZE / 1024 / 1024}MB"`). -/
def SIZE_LIMIT_MSG : Str := "File too large. Maximum size: 10.0MB".toList

/-- Error message of the minimum-content guard in `main.py`. -/
def INSUFFICIENT_MSG : Str :=
  "OCR failed to extract meaningful text from the file".toList

/-- Truncation of the OCR text for the response:
`ocr_text[:500] + "..." if len(ocr_text) > 500 else ocr_text`. -/
def pyTruncate (t : Str) : Str :=
  if 500 < t.length then t.take 500 ++ "...".toList else t

/-- The `extract_invoice` endpoint of `main.py`.  In order: the extension
check (`HTTPException 400`), the configuration check (`HTTPException
500`), opening the upload file for writing (this creates it), the size
check (`HTTPException 400`, re-raised past the `finally` that unlinks the
file), OCR via `process_file` (which cleans the raw text), the
minimum-content guard, and the completion client; every exception other
than `HTTPException` becomes a `success=false` envelope, and the `finally`
removes the uploaded temp file on every path that created it. -/
def extract_invoice (req : Request) : Outcome × Trace :=
  if req.ext ∉ ALLOWED_EXTENSIONS then
    (.httpError 400 ("Unsupported file type: ".toList ++ req.ext ++
       ". Allowed types: .pdf, .jpg, .jpeg, .png".toList),
     ⟨false, false, false, false⟩)
  else if (validateSettings req.apiKey).1 = false then
    (.httpError 500 (validateSettings req.apiKey).2, ⟨false, false, false, false⟩)
  else if MAX_FILE_SIZE < req.contentSize then
    (.httpError 400 SIZE_LIMIT_MSG, ⟨true, false, false, false⟩)
  else
    match req.ocrOutcome with
    | .error e => (.envelope ⟨false, none, some e, none⟩, ⟨true, false, true, false⟩)
    | .ok raw =>
      if clean_text raw = [] ∨ (pyStrip (clean_text raw)).length < 10 then
        (.envelope ⟨false, none, some INSUFFICIENT_MSG, none⟩, ⟨true, false, true, false⟩)
      else
        match extract_invoice_data req.aiResponse with
        | .error e => (.envelope ⟨false, none, some e, none⟩, ⟨true, false, true, true⟩)
        | .ok d =>
          (.envelope ⟨true, some d, none, some (pyTruncate (clean_text raw))⟩,
           ⟨true, false, true, true⟩)

/-! ## Concrete inputs used to instantiate the theorems -/

/-- A raw OCR text whose cleaned form is comfortably over the 10-character
minimum. -/
def goodRaw : Str := "Invoice 123 Total 456".toList

/-- An upload one byte over the 10 MiB limit, otherwise well-formed. -/
def oversizedReq : Request :=
  ⟨".pdf".toList, MAX_FILE_SIZE + 1, "key".toList, .ok goodRaw,
   ⟨200, [], true, .ok {}⟩⟩

/-- A well-formed request whose completion endpoint answers HTTP 500. -/
def upstream500Req : Request :=
  ⟨".png".toList, 4096, "key".toList, .ok goodRaw,
   ⟨500, "internal error".toList, true, .ok {}⟩⟩

/-- A well-formed request whose OCR text cleans to fewer than 10
characters. -/
def shortTextReq : Request :=
  ⟨".jpg".toList, 4096, "key".toList, .ok "  hi \n ".toList,
   ⟨200, [], true, .ok {}⟩⟩

/-- A well-formed request whose completion endpoint returns the empty JSON
object. -/
def emptyObjectReq : Request :=
  ⟨".png".toList, 4096, "key".toList, .ok goodRaw,
   ⟨200, [], true, .ok emptyInvoiceDict⟩⟩

/-! ## Sanity examples for the text-cleaning model -/

example : clean_text "  a\n\n b   c \t".toList = "a b c".toList := by decide
example : clean_text [] = [] := by decide
example : clean_text "   ".toList = [] := by decide

/-! ## Lemmas: shape of collapsed text -/

theorem spacedOk_cons (a : Char) (l : Str) :
    spacedOk (a :: l) = (pairOk a l && spacedOk l) := by
  cases l <;> simp [spacedOk, pairOk]

theorem spacedOk_tail {a : Char} {l : Str} (h : spacedOk (a :: l) = true) :
    spacedOk l = true := by
  rw [spacedOk_cons, Bool.and_eq_true] at h; exact h.2

theorem pairOk_of_headOk {a : Char} {l : Str} (h : headOk l = true) :
    pairOk a l = true := by
  cases l with
  | nil => rfl
  | cons d ds =>
    simp only [headOk, Bool.not_eq_true'] at h
    simp [pairOk, h]

theorem pairOk_of_not_space {a : Char} (l : Str) (h : pySpace a = false) :
    pairOk a l = true := by
  cases l <;> simp [pairOk, h]

/-! ### Shape of `collapseWS` output -/

theorem wsOnly_collapseAux (l : Str) : ∀ b, wsOnlySpace (collapseAux b l) = true := by
  induction l with
  | nil => intro b; rfl
  | cons c rest ih =>
    intro b
    by_cases hc : pySpace c = true
    · cases b <;> simp [collapseAux, hc, wsOnlySpace, ih]
    · simp only [Bool.not_eq_true] at hc
      simp [collapseAux, hc, wsOnlySpace, ih]

theorem headOk_collapseAux_true (l : Str) : headOk (collapseAux true l) = true := by
  induction l with
  | nil => rfl
  | cons c rest ih =>
    by_cases hc : pySpace c = true
    · simpa [collapseAux, hc] using ih
    · simp only [Bool.not_eq_true] at hc
      simp [collapseAux, hc, headOk]

theorem spaced_collapseAux (l : Str) : ∀ b, spacedOk (collapseAux b l) = true := by
  induction l with
  | nil => intro b; rfl
  | cons c rest ih =>
    intro b
    by_cases hc : pySpace c = true
    · cases b
      · rw [show collapseAux false (c :: rest) = ' ' :: collapseAux true rest by
          simp [collapseAux, hc]]
        rw [spacedOk_cons, Bool.and_eq_true]
        exact ⟨pairOk_of_headOk (headOk_collapseAux_true rest), ih true⟩
      · rw [show collapseAux true (c :: rest) = collapseAux true rest by
          simp [collapseAux, hc]]
        exact ih true
    · simp only [Bool.not_eq_true] at hc
      rw [show collapseAux b (c :: rest) = c :: collapseAux false rest by
        simp [collapseAux, hc]]
      rw [spacedOk_cons, Bool.and_eq_true]
      exact ⟨pairOk_of_not_space _ hc, ih false⟩

theorem mem_collapseAux {c : Char} {l : Str} :
    ∀ b, c ∈ collapseAux b l → c = ' ' ∨ pySpace c = false := by
  induction l with
  | nil => intro b h; simp [collapseAux] at h
  | cons a rest ih =>
    intro b h
    by_cases ha : pySpace a = true
    · cases b
      · rw [show collapseAux false (a :: rest) = ' ' :: collapseAux true rest by
          simp [collapseAux, ha]] at h
        rcases List.mem_cons.mp h with h | h
        · exact Or.inl h
        · exact ih true h
      · rw [show collapseAux true (a :: rest) = collapseAux true rest by
          simp [collapseAux, ha]] at h
        exact ih true h
    · simp only [Bool.not_eq_true] at ha
      rw [show collapseAux b (a :: rest) = a :: collapseAux false rest by
        simp [collapseAux, ha]] at h
      rcases List.mem_cons.mp h with h | h
      · subst h; exact Or.inr ha
      · exact ih false h

/-! ### Fixpoint property: collapsing is the identity on collapsed text -/

theorem collapseAux_fix {l : Str} (hw : wsOnlySpace l = true) (hs : spacedOk l = true) :
    collapseAux false l = l ∧ (headOk l = true → collapseAux true l = l) := by
  induction l with
  | nil => exact ⟨rfl, fun _ => rfl⟩
  | cons c rest ih =>
    simp only [wsOnlySpace, Bool.and_eq_true, Bool.or_eq_true, Bool.not_eq_true',
      decide_eq_true_eq] at hw
    obtain ⟨hc, hwrest⟩ := hw
    have hpair : pairOk c rest = true := by
      rw [spacedOk_cons, Bool.and_eq_true] at hs; exact hs.1
    have hsrest : spacedOk rest = true := spacedOk_tail hs
    obtain ⟨ih1, ih2⟩ := ih hwrest hsrest
    by_cases hp : pySpace c = true
    · have hcsp : c = ' ' := by
        rcases hc with hc | hc
        · rw [hc] at hp; exact absurd hp (by simp)
        · exact hc
      have hhead : headOk rest = true := by
        cases rest with
        | nil => rfl
        | cons d ds =>
          simp only [pairOk, hp, Bool.true_and, Bool.not_eq_true'] at hpair
          simp [headOk, hpair]
      constructor
      · rw [show collapseAux false (c :: rest) = ' ' :: collapseAux true rest by
          simp [collapseAux, hp]]
        rw [ih2 hhead, hcsp]
      · intro hh
        simp [headOk, hp] at hh
    · simp only [Bool.not_eq_true] at hp
      have hstep : ∀ b, collapseAux b (c :: rest) = c :: collapseAux false rest := by
        intro b; simp [collapseAux, hp]
      exact ⟨by rw [hstep, ih1], fun _ => by rw [hstep, ih1]⟩

theorem collapseWS_fix {l : Str} (hw : wsOnlySpace l = true) (hs : spacedOk l = true) :
    collapseWS l = l :=
  (collapseAux_fix hw hs).1

/-! ## Lemmas: Python strip and split -/

theorem length_dropWhile_le' (p : Char → Bool) (l : Str) :
    (l.dropWhile p).length ≤ l.length := by
  induction l with
  | nil => simp
  | cons a as ih =>
    by_cases ha : p a = true
    · rw [List.dropWhile_cons_of_pos ha]
      exact Nat.le_trans ih (Nat.le_succ _)
    · rw [List.dropWhile_cons_of_neg (by simp [ha])]

theorem dropWhile_cons_eq_self {p : Char → Bool} {c : Char} {l : Str}
    (h : (c :: l).dropWhile p = c :: l) : p c = false := by
  by_cases hp : p c = true
  · rw [List.dropWhile_cons_of_pos hp] at h
    have hlen := congrArg List.length h
    have hle := length_dropWhile_le' p l
    simp at hlen
    omega
  · simpa using hp

theorem dropWhile_idem (p : Char → Bool) (l : Str) :
    (l.dropWhile p).dropWhile p = l.dropWhile p := by
  induction l with
  | nil => rfl
  | cons c rest ih =>
    by_cases hp : p c = true
    · rw [List.dropWhile_cons_of_pos hp]; exact ih
    · rw [List.dropWhile_cons_of_neg (by simp [hp]),
        List.dropWhile_cons_of_neg (by simp [hp])]

theorem rstripWS_cons_eq_nil {c : Char} {l : Str} (h : rstripWS l = []) :
    rstripWS (c :: l) = if pySpace c then [] else [c] := by
  rw [rstripWS, h]

theorem rstripWS_cons_eq_cons {c : Char} {l : Str} {d : Char} {ds : Str}
    (h : rstripWS l = d :: ds) : rstripWS (c :: l) = c :: d :: ds := by
  rw [rstripWS, h]

theorem rstripWS_cons_of_not_space {c : Char} (l : Str) (h : pySpace c = false) :
    rstripWS (c :: l) = c :: rstripWS l := by
  cases hr : rstripWS l with
  | nil => rw [rstripWS_cons_eq_nil hr, if_neg (by simp [h])]
  | cons d ds => rw [rstripWS_cons_eq_cons hr]

theorem rstripWS_idem (l : Str) : rstripWS (rstripWS l) = rstripWS l := by
  induction l with
  | nil => rfl
  | cons c rest ih =>
    cases hr : rstripWS rest with
    | nil =>
      rw [rstripWS_cons_eq_nil hr]
      by_cases hp : pySpace c = true
      · rw [if_pos hp]; rfl
      · rw [if_neg hp]
        have h0 : rstripWS ([] : Str) = [] := rfl
        rw [rstripWS_cons_eq_nil h0, if_neg hp]
    | cons d ds =>
      have h2 : rstripWS (d :: ds) = d :: ds := by rw [← hr, ih, hr]
      rw [rstripWS_cons_eq_cons hr, rstripWS_cons_eq_cons h2]

theorem dropWhile_rstripWS_fix {l : Str} (h : l.dropWhile pySpace = l) :
    (rstripWS l).dropWhile pySpace = rstripWS l := by
  cases l with
  | nil => rfl
  | cons c rest =>
    have hc : pySpace c = false := dropWhile_cons_eq_self h
    rw [rstripWS_cons_of_not_space _ hc,
      List.dropWhile_cons_of_neg (by simp [hc])]

theorem pyStrip_idem (l : Str) : pyStrip (pyStrip l) = pyStrip l := by
  unfold pyStrip
  rw [dropWhile_rstripWS_fix (dropWhile_idem pySpace l), rstripWS_idem]

theorem mem_dropWhile {p : Char → Bool} {c : Char} {l : Str}
    (h : c ∈ l.dropWhile p) : c ∈ l := by
  induction l with
  | nil => simp at h
  | cons a as ih =>
    by_cases hp : p a = true
    · rw [List.dropWhile_cons_of_pos hp] at h
      exact List.mem_cons_of_mem _ (ih h)
    · rwa [List.dropWhile_cons_of_neg (by simp [hp])] at h

theorem mem_rstripWS {c : Char} {l : Str} (h : c ∈ rstripWS l) : c ∈ l := by
  induction l with
  | nil => simp [rstripWS] at h
  | cons a as ih =>
    cases hr : rstripWS as with
    | nil =>
      rw [rstripWS_cons_eq_nil hr] at h
      by_cases hp : pySpace a = true
      · rw [if_pos hp] at h; simp at h
      · rw [if_neg hp] at h
        simp only [List.mem_singleton] at h
        simp [h]
    | cons d ds =>
      rw [rstripWS_cons_eq_cons hr] at h
      rcases List.mem_cons.mp h with h | h
      · simp [h]
      · exact List.mem_cons_of_mem _ (ih (hr ▸ h))

theorem mem_pyStrip {c : Char} {l : Str} (h : c ∈ pyStrip l) : c ∈ l :=
  mem_dropWhile (mem_rstripWS h)

theorem pySplit_of_not_mem {sep : Char} {l : Str} (h : sep ∉ l) :
    pySplit sep l = [l] := by
  induction l with
  | nil => rfl
  | cons c rest ih =>
    have hc : c ≠ sep := fun hh => h (by simp [hh])
    have hrest : sep ∉ rest := fun hh => h (List.mem_cons_of_mem _ hh)
    simp [pySplit, ih hrest, hc]

/-! ## Lemmas: `clean_text` reduces to strip-after-collapse -/

theorem nl_not_mem_collapseWS (l : Str) : '\n' ∉ collapseWS l := by
  intro h
  rcases mem_collapseAux false h with h | h
  · exact absurd h (by decide)
  · exact absurd h (by simp [pySpace])

theorem clean_text_eq (t : Str) : clean_text t = pyStrip (collapseWS t) := by
  show pyStrip (List.intercalate ['\n']
      (((pySplit '\n' (collapseWS t)).map pyStrip).filter (fun line => line ≠ []))) =
    pyStrip (collapseWS t)
  rw [pySplit_of_not_mem (nl_not_mem_collapseWS t)]
  rw [List.map_cons, List.map_nil, List.filter_cons]
  by_cases h : pyStrip (collapseWS t) = []
  · rw [if_neg (by simp [h]), h]
    rfl
  · rw [if_pos (by simp [h])]
    rw [show List.filter (fun line => decide (line ≠ [])) ([] : List Str) = [] from rfl]
    rw [show List.intercalate ['\n'] [pyStrip (collapseWS t)] = pyStrip (collapseWS t) by
      simp [List.intercalate]]
    exact pyStrip_idem _

/-! ## Lemmas: the shape predicates survive stripping -/

theorem wsOnly_dropWhile {l : Str} (p : Char → Bool) (h : wsOnlySpace l = true) :
    wsOnlySpace (l.dropWhile p) = true := by
  induction l with
  | nil => exact h
  | cons c rest ih =>
    rw [wsOnlySpace, Bool.and_eq_true] at h
    by_cases hp : p c = true
    · rw [List.dropWhile_cons_of_pos hp]; exact ih h.2
    · rw [List.dropWhile_cons_of_neg (by simp [hp])]
      rw [wsOnlySpace, Bool.and_eq_true]
      exact h

theorem wsOnly_rstripWS {l : Str} (h : wsOnlySpace l = true) :
    wsOnlySpace (rstripWS l) = true := by
  induction l with
  | nil => exact h
  | cons c rest ih =>
    rw [wsOnlySpace, Bool.and_eq_true] at h
    cases hr : rstripWS rest with
    | nil =>
      rw [rstripWS_cons_eq_nil hr]
      by_cases hp : pySpace c = true
      · rw [if_pos hp]; rfl
      · rw [if_neg hp]
        rw [wsOnlySpace, Bool.and_eq_true]
        exact ⟨h.1, rfl⟩
    | cons d ds =>
      rw [rstripWS_cons_eq_cons hr]
      rw [wsOnlySpace, Bool.and_eq_true]
      exact ⟨h.1, hr ▸ ih h.2⟩

theorem spaced_dropWhile {l : Str} (p : Char → Bool) (h : spacedOk l = true) :
    spacedOk (l.dropWhile p) = true := by
  induction l with
  | nil => exact h
  | cons c rest ih =>
    by_cases hp : p c = true
    · rw [List.dropWhile_cons_of_pos hp]; exact ih (spacedOk_tail h)
    · rwa [List.dropWhile_cons_of_neg (by simp [hp])]

theorem rstripWS_head {l : Str} {d : Char} {ds : Str} (h : rstripWS l = d :: ds) :
    ∃ t, l = d :: t := by
  cases l with
  | nil => exact absurd h (by simp [rstripWS])
  | cons c rest =>
    refine ⟨rest, ?_⟩
    cases hr : rstripWS rest with
    | nil =>
      rw [rstripWS_cons_eq_nil hr] at h
      by_cases hp : pySpace c = true
      · rw [if_pos hp] at h; exact absurd h (by simp)
      · rw [if_neg hp] at h
        cases h; rfl
    | cons e es =>
      rw [rstripWS_cons_eq_cons hr] at h
      cases h; rfl

theorem spaced_rstripWS {l : Str} (h : spacedOk l = true) :
    spacedOk (rstripWS l) = true := by
  induction l with
  | nil => exact h
  | cons c rest ih =>
    cases hr : rstripWS rest with
    | nil =>
      rw [rstripWS_cons_eq_nil hr]
      by_cases hp : pySpace c = true
      · rw [if_pos hp]; rfl
      · rw [if_neg hp]; rfl
    | cons d ds =>
      have hs : spacedOk (d :: ds) = true := hr ▸ ih (spacedOk_tail h)
      obtain ⟨t, ht⟩ := rstripWS_head hr
      rw [rstripWS_cons_eq_cons hr]
      rw [spacedOk_cons, Bool.and_eq_true]
      refine ⟨?_, hs⟩
      subst ht
      rw [spacedOk_cons, Bool.and_eq_true] at h
      simpa [pairOk] using h.1

theorem wsOnly_pyStrip {l : Str} (h : wsOnlySpace l = true) :
    wsOnlySpace (pyStrip l) = true :=
  wsOnly_rstripWS (wsOnly_dropWhile pySpace h)

theorem spaced_pyStrip {l : Str} (h : spacedOk l = true) :
    spacedOk (pyStrip l) = true :=
  spaced_rstripWS (spaced_dropWhile pySpace h)

/-- C6: the text-cleaning function `clean_text` is idempotent: for every
input string `t`, `clean_text (clean_text t) = clean_text t`. -/
theorem clean_text_idempotent (t : Str) :
    clean_text (clean_text t) = clean_text t := by
  rw [clean_text_eq t, clean_text_eq (pyStrip (collapseWS t))]
  have hw : wsOnlySpace (pyStrip (collapseWS t)) = true :=
    wsOnly_pyStrip (wsOnly_collapseAux t false)
  have hs : spacedOk (pyStrip (collapseWS t)) = true :=
    spaced_pyStrip (spaced_collapseAux t false)
  rw [collapseWS_fix hw hs, pyStrip_idem]

/-- C9: the output of `clean_text` contains no newline character: all
whitespace runs (newlines included) are collapsed to single spaces before
the line-splitting step, so the cleaned text is always a single line. -/
theorem clean_text_no_newline (t : Str) :
    (clean_text t).contains '\n' = false := by
  rw [clean_text_eq t]
  by_contra hcon
  rw [Bool.not_eq_false] at hcon
  have hmem : '\n' ∈ pyStrip (collapseWS t) := by
    have := List.elem_iff.mp hcon
    exact this
  exact nl_not_mem_collapseWS t (mem_pyStrip hmem)

/-! ## Lemmas: the minimum-content guard in terms of cleaned length -/

theorem pyStrip_clean_text (t : Str) : pyStrip (clean_text t) = clean_text t := by
  rw [clean_text_eq]
  exact pyStrip_idem _

theorem guard_iff (raw : Str) :
    (clean_text raw = [] ∨ (pyStrip (clean_text raw)).length < 10) ↔
      (clean_text raw).length < 10 := by
  rw [pyStrip_clean_text]
  constructor
  · rintro (h | h)
    · simp [h]
    · exact h
  · exact Or.inr

/-! ## Lemmas: reduction of the pipeline up to the completion client -/

theorem extract_invoice_ai_step (req : Request) (raw : Str)
    (h1 : req.ext ∈ ALLOWED_EXTENSIONS) (h2 : req.apiKey ≠ [])
    (h3 : req.contentSize ≤ MAX_FILE_SIZE) (h4 : req.ocrOutcome = .ok raw)
    (h5 : ¬ (clean_text raw).length < 10) :
    extract_invoice req =
      match extract_invoice_data req.aiResponse with
      | .error e => (.envelope ⟨false, none, some e, none⟩, ⟨true, false, true, true⟩)
      | .ok d =>
        (.envelope ⟨true, some d, none, some (pyTruncate (clean_text raw))⟩,
         ⟨true, false, true, true⟩) := by
  have hv : validateSettings req.apiKey = (true, []) := by
    rw [validateSettings, if_neg h2]
  simp only [extract_invoice, h4]
  rw [if_neg (not_not_intro h1), hv]
  rw [if_neg (by simp)]
  rw [if_neg (Nat.not_lt.mpr h3)]
  rw [if_neg (fun hc => h5 ((guard_iff raw).mp hc))]

/-! ## C1: temp page images during PDF processing (code bug) -/

theorem pdfLoop_all_ok_disk (pages : List (Except Str Str)) :
    (∀ p ∈ pages, ∃ t, p = .ok t) → ∀ i, (pdfLoop pages i []).2 = [] := by
  induction pages with
  | nil => intro _ i; rfl
  | cons page rest ih =>
    intro h i
    obtain ⟨t, ht⟩ := h page (List.mem_cons_self _ _)
    subst ht
    have hrest := ih (fun p hp => h p (List.mem_cons_of_mem _ hp)) (i + 1)
    have hfilter : List.filter (fun j => decide (j ≠ i)) ([] ++ [i]) = [] := by simp
    simp only [pdfLoop, hfilter]
    rcases hpl : pdfLoop rest (i + 1) [] with ⟨res, d3⟩
    rw [hpl] at hrest
    cases res <;> simpa using hrest

/-- C1: FALSIFIED ON THE CODE. When recognition of a page raises, the
`unlink` that follows the recognition call in the loop body of
`extract_text_from_pdf` is never reached (there is no `try`/`finally`), so
the rasterized `temp_page_0.png` of the failing page is left on disk while
the exception propagates. -/
theorem pdf_temp_file_left_on_failure :
    extract_text_from_pdf [Except.error "recognition failed".toList] =
      (.error "Failed to extract text from PDF: recognition failed".toList, [0]) := by
  rfl

/-! ## C2: oversize uploads (corrected) -/

/-- C2 counterexample: for an upload one byte over the limit, the uploaded
temporary file IS created on disk — `open(file_path, "wb")` runs before
the size check — refuting "no temporary uploaded file is ever created". -/
theorem oversize_creates_temp_file :
    (extract_invoice oversizedReq).2.uploadCreated = true ∧
      (extract_invoice oversizedReq).1 = .httpError 400 SIZE_LIMIT_MSG := by
  exact ⟨rfl, rfl⟩

/-- C2 (amended): every upload exceeding the 10 MiB limit is rejected with
HTTP 400 before OCR or the completion client run; the uploaded temporary
file is created before the size check but is removed by the cleanup block,
so none remains when the rejection is returned. -/
theorem oversize_rejected_cleanly (req : Request)
    (h1 : req.ext ∈ ALLOWED_EXTENSIONS) (h2 : req.apiKey ≠ [])
    (h3 : MAX_FILE_SIZE < req.contentSize) :
    extract_invoice req = (.httpError 400 SIZE_LIMIT_MSG, ⟨true, false, false, false⟩) := by
  have hv : validateSettings req.apiKey = (true, []) := by
    rw [validateSettings, if_neg h2]
  unfold extract_invoice
  rw [if_neg (not_not_intro h1), hv]
  rw [if_neg (by simp)]
  rw [if_pos h3]

/-- C2 witness: the amended statement at the concrete oversized request. -/
theorem oversize_rejected_cleanly_witness :
    extract_invoice oversizedReq =
      (.httpError 400 SIZE_LIMIT_MSG, ⟨true, false, false, false⟩) :=
  oversize_rejected_cleanly oversizedReq (by decide) (by decide) (by decide)

/-! ## C3: missing credential crashes startup (code bug) -/

/-- C3: FALSIFIED ON THE CODE. With the credential equal to the empty
string, the `health_check` endpoint alone would indeed report `degraded`
without raising, but service construction does raise:
`CerebrasClient.__init__` raises `ValueError("CEREBRAS_API_KEY is not
set")`, and the `lifespan` startup hook constructs that client, so the
service crashes at startup instead of coming up degraded. -/
theorem startup_raises_on_missing_key :
    lifespan_startup [] = .error "CEREBRAS_API_KEY is not set".toList ∧
      health_check [] =
        ("degraded".toList, false,
         some "CEREBRAS_API_KEY not found in environment variables".toList) := by
  exact ⟨rfl, rfl⟩

/-! ## C4: non-2xx completion status yields a diagnostic failure envelope -/

/-- C4: on every run that reaches the completion client, a non-2xx HTTP
status makes the pipeline return a `success=false` envelope whose error
message contains both the status code and the response body text; the
outcome is a returned envelope, not a propagated exception. -/
theorem upstream_error_envelope (req : Request) (raw : Str)
    (h1 : req.ext ∈ ALLOWED_EXTENSIONS) (h2 : req.apiKey ≠ [])
    (h3 : req.contentSize ≤ MAX_FILE_SIZE) (h4 : req.ocrOutcome = .ok raw)
    (h5 : ¬ (clean_text raw).length < 10)
    (h6 : req.aiResponse.status < 200 ∨ 300 ≤ req.aiResponse.status) :
    ∃ msg : Str,
      (extract_invoice req).1 = .envelope ⟨false, none, some msg, none⟩ ∧
      statusStr req.aiResponse.status <:+: msg ∧
      req.aiResponse.bodyText <:+: msg := by
  have hai : extract_invoice_data req.aiResponse =
      .error ("Cerebras API error: ".toList ++ statusStr req.aiResponse.status ++
        " - ".toList ++ req.aiResponse.bodyText) := by
    rw [extract_invoice_data, if_pos h6]
  rw [extract_invoice_ai_step req raw h1 h2 h3 h4 h5, hai]
  refine ⟨_, rfl,
    ⟨"Cerebras API error: ".toList, " - ".toList ++ req.aiResponse.bodyText, ?_⟩,
    ⟨"Cerebras API error: ".toList ++ statusStr req.aiResponse.status ++ " - ".toList,
     [], ?_⟩⟩
  · simp [List.append_assoc]
  · simp [List.append_assoc]

/-- C4 witness: a concrete run with HTTP 500 and body `internal error`. -/
theorem upstream_error_envelope_witness :
    ∃ msg : Str,
      (extract_invoice upstream500Req).1 = .envelope ⟨false, none, some msg, none⟩ ∧
      statusStr 500 <:+: msg ∧
      "internal error".toList <:+: msg :=
  upstream_error_envelope upstream500Req goodRaw (by decide) (by decide) (by decide)
    rfl (by decide) (by decide)

/-! ## C5: the minimum-content guard short-circuits the completion client -/

/-- C5: when the cleaned recognized text has fewer than 10 characters
(which subsumes the empty case), the pipeline returns the
insufficient-content failure envelope and the completion client is never
invoked (`aiInvoked = false` in the trace). -/
theorem insufficient_content_short_circuits (req : Request) (raw : Str)
    (h1 : req.ext ∈ ALLOWED_EXTENSIONS) (h2 : req.apiKey ≠ [])
    (h3 : req.contentSize ≤ MAX_FILE_SIZE) (h4 : req.ocrOutcome = .ok raw)
    (h5 : (clean_text raw).length < 10) :
    extract_invoice req =
      (.envelope ⟨false, none, some INSUFFICIENT_MSG, none⟩,
       ⟨true, false, true, false⟩) := by
  have hv : validateSettings req.apiKey = (true, []) := by
    rw [validateSettings, if_neg h2]
  simp only [extract_invoice, h4]
  rw [if_neg (not_not_intro h1), hv]
  rw [if_neg (by simp)]
  rw [if_neg (Nat.not_lt.mpr h3)]
  rw [if_pos ((guard_iff raw).mpr h5)]

/-- C5 witness: OCR text that cleans to `"hi"` (2 characters). -/
theorem insufficient_content_short_circuits_witness :
    extract_invoice shortTextReq =
      (.envelope ⟨false, none, some INSUFFICIENT_MSG, none⟩,
       ⟨true, false, true, false⟩) :=
  insufficient_content_short_circuits shortTextReq "  hi \n ".toList
    (by decide) (by decide) (by decide) rfl (by decide)

/-! ## C7: empty completion object yields the defaulted record -/

/-- C7: when the completion endpoint answers 2xx with a first choice whose
content is the empty JSON object, the pipeline returns a successful
envelope whose record has every optional field absent, an empty line-item
list, and currency `"USD"`. -/
theorem empty_object_yields_defaults (req : Request) (raw : Str)
    (h1 : req.ext ∈ ALLOWED_EXTENSIONS) (h2 : req.apiKey ≠ [])
    (h3 : req.contentSize ≤ MAX_FILE_SIZE) (h4 : req.ocrOutcome = .ok raw)
    (h5 : ¬ (clean_text raw).length < 10)
    (h6 : 200 ≤ req.aiResponse.status) (h7 : req.aiResponse.status < 300)
    (h8 : req.aiResponse.hasChoices = true)
    (h9 : req.aiResponse.content = .ok emptyInvoiceDict) :
    (extract_invoice req).1 =
      .envelope ⟨true,
        some ⟨none, none, none, none, none, none, some "USD".toList,
              none, none, none, none, [], none⟩,
        none, some (pyTruncate (clean_text raw))⟩ := by
  have hai : extract_invoice_data req.aiResponse =
      .ok (InvoiceData.ofDict emptyInvoiceDict) := by
    rw [extract_invoice_data, if_neg (by omega), if_neg (by simp [h8]), h9]
  rw [extract_invoice_ai_step req raw h1 h2 h3 h4 h5, hai]
  rfl

/-- C7 witness: the concrete empty-object run. -/
theorem empty_object_yields_defaults_witness :
    (extract_invoice emptyObjectReq).1 =
      .envelope ⟨true,
        some ⟨none, none, none, none, none, none, some "USD".toList,
              none, none, none, none, [], none⟩,
        none, some (pyTruncate (clean_text goodRaw))⟩ :=
  empty_object_yields_defaults emptyObjectReq goodRaw (by decide) (by decide)
    (by decide) rfl (by decide) (by decide) (by decide) rfl rfl

/-! ## C8: the successful envelope carries the truncated OCR text -/

/-- C8: every successful envelope carries the OCR text of the run,
truncated to its first 500 characters with the `"..."` marker appended
when the text is longer than 500 characters, and carried in full
otherwise. -/
theorem success_envelope_truncates (req : Request) (raw : Str) (d : InvoiceData)
    (h1 : req.ext ∈ ALLOWED_EXTENSIONS) (h2 : req.apiKey ≠ [])
    (h3 : req.contentSize ≤ MAX_FILE_SIZE) (h4 : req.ocrOutcome = .ok raw)
    (h5 : ¬ (clean_text raw).length < 10)
    (h6 : extract_invoice_data req.aiResponse = .ok d) :
    (extract_invoice req).1 =
      .envelope ⟨true, some d, none,
        some (if 500 < (clean_text raw).length
              then (clean_text raw).take 500 ++ "...".toList
              else clean_text raw)⟩ := by
  rw [extract_invoice_ai_step req raw h1 h2 h3 h4 h5, h6]
  rfl

/-- C8 witness: the concrete successful run of the empty-object request. -/
theorem success_envelope_truncates_witness :
    (extract_invoice emptyObjectReq).1 =
      .envelope ⟨true, some (InvoiceData.ofDict emptyInvoiceDict), none,
        some (if 500 < (clean_text goodRaw).length
              then (clean_text goodRaw).take 500 ++ "...".toList
              else clean_text goodRaw)⟩ :=
  success_envelope_truncates emptyObjectReq goodRaw (InvoiceData.ofDict emptyInvoiceDict)
    (by decide) (by decide) (by decide) rfl (by decide) rfl

/-! ## C10: internal exclusivity of the envelope -/

/-- C10: every envelope the endpoint returns is internally exclusive: on
`success=true` the record is present and the error absent; on
`success=false` the error is present and the record and the OCR-text
preview are absent. -/
theorem envelope_exclusive (req : Request) (r : APIResponse) (tr : Trace)
    (h : extract_invoice req = (.envelope r, tr)) :
    (r.success = true → r.data.isSome = true ∧ r.error = none) ∧
    (r.success = false →
      r.error.isSome = true ∧ r.data = none ∧ r.ocr_text = none) := by
  simp only [extract_invoice] at h
  by_cases c1 : req.ext ∉ ALLOWED_EXTENSIONS
  · rw [if_pos c1] at h; exact absurd h (by simp)
  rw [if_neg c1] at h
  by_cases c2 : (validateSettings req.apiKey).1 = false
  · rw [if_pos c2] at h; exact absurd h (by simp)
  rw [if_neg c2] at h
  by_cases c3 : MAX_FILE_SIZE < req.contentSize
  · rw [if_pos c3] at h; exact absurd h (by simp)
  rw [if_neg c3] at h
  cases hocr : req.ocrOutcome with
  | error e =>
    simp only [hocr] at h
    have ho : Outcome.envelope ⟨false, none, some e, none⟩ = .envelope r :=
      congrArg Prod.fst h
    injection ho with ho
    rw [← ho]
    simp
  | ok raw =>
    simp only [hocr] at h
    by_cases c4 : clean_text raw = [] ∨ (pyStrip (clean_text raw)).length < 10
    · rw [if_pos c4] at h
      have ho : Outcome.envelope ⟨false, none, some INSUFFICIENT_MSG, none⟩ =
          .envelope r := congrArg Prod.fst h
      injection ho with ho
      rw [← ho]
      simp
    · rw [if_neg c4] at h
      cases hai : extract_invoice_data req.aiResponse with
      | error e =>
        simp only [hai] at h
        have ho : Outcome.envelope ⟨false, none, some e, none⟩ = .envelope r :=
          congrArg Prod.fst h
        injection ho with ho
        rw [← ho]
        simp
      | ok d =>
        simp only [hai] at h
        have ho : Outcome.envelope
            ⟨true, some d, none, some (pyTruncate (clean_text raw))⟩ =
            .envelope r := congrArg Prod.fst h
        injection ho with ho
        rw [← ho]
        simp

/-- C10 witness: the exclusivity at the concrete insufficient-content
run. -/
theorem envelope_exclusive_witness :
    ((APIResponse.mk false none (some INSUFFICIENT_MSG) none).success = true →
      (APIResponse.mk false none (some INSUFFICIENT_MSG) none).data.isSome = true ∧
      (APIResponse.mk false none (some INSUFFICIENT_MSG) none).error = none) ∧
    ((APIResponse.mk false none (some INSUFFICIENT_MSG) none).success = false →
      (APIResponse.mk false none (some INSUFFICIENT_MSG) none).error.isSome = true ∧
      (APIResponse.mk false none (some INSUFFICIENT_MSG) none).data = none ∧
      (APIResponse.mk false none (some INSUFFICIENT_MSG) none).ocr_text = none) :=
  envelope_exclusive shortTextReq
    ⟨false, none, some INSUFFICIENT_MSG, none⟩ ⟨true, false, true, false⟩ (by decide)
